import Mathlib

/-!
Verification development for the MOSuite-Galaxy tool-generation pipeline.

The repository pairs a compile-time tool-definition synthesizer
(`galaxy_xml_synthesizer.py`) with a run-time parameter normalizer
(`format_values.py`).  Both modules are modelled here as executable Lean
definitions; their unit-test suites (`tests/test_format_values.py`,
`tests/test_galaxy_xml_synthesizer.py`) pin the concrete behaviours the
models must reproduce.

Machine strings are modelled as Lean `String`s, but all string operations
are re-implemented structurally over `List Char` so that every definition
evaluates inside the kernel (the built-in `String.trim`, `String.toLower`,
`String.splitOn` are compiled with well-founded recursion and do not
reduce).  JSON documents are modelled by the inductive `JVal`, with JSON
objects as ordered association lists, matching the insertion-ordered
dictionaries the Python code relies on.
-/

set_option maxRecDepth 8000

namespace MOSuite

/-- Whitespace test used by trimming, mirroring Python `str.strip()` on the
whitespace characters that occur in the repository's data. -/
def isSpaceChar (c : Char) : Bool :=
  c == ' ' || c == '\t' || c == '\n' || c == '\r'

/-- Strip leading and trailing whitespace from a character list. -/
def trimChars (l : List Char) : List Char :=
  ((l.dropWhile isSpaceChar).reverse.dropWhile isSpaceChar).reverse

/-- Python `str.strip()`. -/
def strTrim (s : String) : String := ⟨trimChars s.data⟩

/-- ASCII lower-casing of one character. -/
def lowerChar (c : Char) : Char :=
  if 65 ≤ c.toNat ∧ c.toNat ≤ 90 then Char.ofNat (c.toNat + 32) else c

/-- Python `str.lower()` (ASCII case folding, which covers every string the
pipeline case-folds). -/
def strLower (s : String) : String := ⟨s.data.map lowerChar⟩

/-- Does `p` occur at the head of `l`? -/
def listStartsWith : List Char → List Char → Bool
  | [], _ => true
  | _ :: _, [] => false
  | p :: ps, c :: cs => p == c && listStartsWith ps cs

/-- Does the pattern occur anywhere in the list? -/
def containsSubChars : List Char → List Char → Bool
  | l, pat =>
    match l with
    | [] => pat.isEmpty
    | _ :: rest => listStartsWith pat l || containsSubChars rest pat

/-- Python's substring test `pat in s`. -/
def str_contains (s pat : String) : Bool := containsSubChars s.data pat.data

/-- The key filter at the heart of the Normalizer: does a key name contain
the substring "_repeat" anywhere? -/
def contains_repeat (k : String) : Bool := str_contains k "_repeat"

/-- Fuel-driven splitter; fuel is consumed one unit per character so that
starting with `fuel = l.length` always suffices. -/
def splitGo (sep : List Char) : Nat → List Char → List Char → List (List Char)
  | _, [], cur => [cur.reverse]
  | 0, l, cur => [cur.reverse ++ l]
  | fuel + 1, c :: cs, cur =>
    if listStartsWith sep (c :: cs) then
      cur.reverse :: splitGo sep fuel (List.drop sep.length (c :: cs)) []
    else
      splitGo sep fuel cs (c :: cur)

/-- Python `str.split(sep)` on a non-empty separator (the pipeline never
splits on an empty separator; it is mapped to the identity segmentation). -/
def splitOnStr (s sep : String) : List String :=
  if sep.data.isEmpty then [s]
  else (splitGo sep.data s.data.length s.data []).map (fun l => ⟨l⟩)

/-- JSON values, the data interchanged between Galaxy, the Normalizer and
the downstream function.  Objects are ordered association lists; numbers are
modelled as integers (the repository's parameter records carry no
non-integral numerics that any verified claim depends on). -/
inductive JVal where
  | null
  | bool (b : Bool)
  | num (n : Int)
  | str (s : String)
  | arr (items : List JVal)
  | obj (fields : List (String × JVal))

/-- First-match lookup in a JSON object, Python `d.get(k)`. -/
def lookupKey : List (String × JVal) → String → Option JVal
  | [], _ => none
  | (k', v) :: rest, k => if k' == k then some v else lookupKey rest k

/-- Python dictionary assignment `d[k] = v`: replace in place when the key
exists, append otherwise. -/
def setKey : List (String × JVal) → String → JVal → List (String × JVal)
  | [], k, v => [(k, v)]
  | (k', v') :: rest, k, v =>
    if k' == k then (k, v) :: rest else (k', v') :: setKey rest k v

/-- Python `d.pop(k, None)`: drop every binding of the key. -/
def removeKey (r : List (String × JVal)) (k : String) : List (String × JVal) :=
  r.filter (fun kv => !(kv.1 == k))

/-- Is the value a JSON object? -/
def is_obj : JVal → Bool
  | .obj _ => true
  | _ => false

/-- Modelled from the spec: Python `str(value)` as the Normalizer's
"stringify" step for scalar values (`format_values.py` is absent from the
sources; its tests exercise stringification only on strings, numbers and
booleans, the shapes the repeat contract produces).  Containers map to the
empty string, which the pipeline never reaches. -/
def jval_to_string : JVal → String
  | .str s => s
  | .num n => Int.repr n
  | .bool true => "True"
  | .bool false => "False"
  | .null => "None"
  | .arr _ => ""
  | .obj _ => ""

/-- Strings whose trimmed, case-folded form coerces to `true`. -/
def true_words : List String := ["true", "yes", "1", "t"]

/-- Strings whose trimmed, case-folded form coerces to `false`. -/
def false_words : List String := ["false", "no", "0", "f", "none", ""]

/-- Modelled from the spec: `normalize_boolean` of the missing
`format_values.py`.  Native booleans pass through; `None` maps to false;
numbers map by zero-ness; a string is trimmed and case-folded, matched
against the true-set and the false-set, and any other (necessarily
non-empty) string falls back to Python truthiness, i.e. `true`.  Containers
take Python `bool()` non-emptiness, a branch no test reaches. -/
def normalize_boolean : JVal → Bool
  | .bool b => b
  | .null => false
  | .num n => !(n == 0)
  | .str s =>
    let t := strLower (strTrim s)
    if true_words.contains t then true
    else if false_words.contains t then false
    else !(t == "")
  | .arr items => !items.isEmpty
  | .obj fields => !fields.isEmpty

/-- Stringified, trimmed "value" field of one repeat-container entry. -/
def repeat_item_value : JVal → String
  | .obj fields =>
    match lookupKey fields "value" with
    | some v => jval_to_string v
    | none => ""
  | v => jval_to_string v

/-- Modelled from the spec: `extract_list_from_repeat` of the missing
`format_values.py`.  If `<name>_repeat` exists as a sequence of
`{"value": v}` records, pull each "value", stringify, trim, and drop
entries that are empty after trimming; otherwise fall back to `params[name]`
directly (sequence: stringify-trim-drop each entry; scalar string: wrap as a
singleton unless empty; absent: empty list). -/
def extract_list_from_repeat (params : List (String × JVal)) (name : String) :
    List String :=
  match lookupKey params (name ++ "_repeat") with
  | some (.arr items) =>
    (items.map (fun it => strTrim (repeat_item_value it))).filter (fun s => !(s == ""))
  | _ =>
    match lookupKey params name with
    | some (.arr items) =>
      (items.map (fun v => strTrim (jval_to_string v))).filter (fun s => !(s == ""))
    | some .null => []
    | some v =>
      let t := strTrim (jval_to_string v)
      if t == "" then [] else [t]
    | none => []

/-- Modelled from the spec: `parse_delimited_text` of the missing
`format_values.py`.  Split on the separator, trim every piece, drop empty
pieces; `None` (and hence empty) input yields the empty list. -/
def parse_delimited_text (text : Option String) (sep : String) : List String :=
  match text with
  | none => []
  | some s => ((splitOnStr s sep).map strTrim).filter (fun p => !(p == ""))

/-- View a looked-up JSON value as the optional text handed to
`parse_delimited_text` (absent or `null` become `None`). -/
def jval_to_text : Option JVal → Option String
  | none => none
  | some .null => none
  | some (.str s) => some s
  | some v => some (jval_to_string v)

/-- Modelled from the spec: `inject_output_configuration` of the missing
`format_values.py`.  A no-op for an absent or empty configuration; for a
non-empty configuration it stores the configuration verbatim under
"outputs" and sets "save_results" to `true`. -/
def inject_output_configuration (cleaned : List (String × JVal))
    (outputs_config : Option (List (String × JVal))) : List (String × JVal) :=
  match outputs_config with
  | none => cleaned
  | some cfg =>
    if cfg.isEmpty then cleaned
    else setKey (setKey cleaned "outputs" (.obj cfg)) "save_results" (.bool true)

/-- Modelled from the spec: `process_galaxy_params` of the missing
`format_values.py`.  Every key in `bool_keys` present in the record has its
value replaced by its boolean coercion; every key in `list_keys` is replaced
by the delimited-text parse when a delimiter is configured for it and by the
repeat/list extraction otherwise, with the `<key>_repeat` source key removed;
all other keys pass through; finally the output configuration is injected
when requested. -/
def process_galaxy_params (params : List (String × JVal))
    (bool_keys list_keys : List String) (delimited_params : List (String × String))
    (outputs_config : Option (List (String × JVal))) (inject_outputs : Bool) :
    List (String × JVal) :=
  let step1 := bool_keys.foldl (fun acc k =>
    match lookupKey acc k with
    | some v => setKey acc k (.bool (normalize_boolean v))
    | none => acc) params
  let step2 := list_keys.foldl (fun acc k =>
    let acc' :=
      match (delimited_params.find? (fun d => d.1 == k)).map (fun d => d.2) with
      | some sep =>
        setKey acc k (.arr ((parse_delimited_text (jval_to_text (lookupKey acc k)) sep).map JVal.str))
      | none =>
        setKey acc k (.arr ((extract_list_from_repeat acc k).map JVal.str))
    removeKey acc' (k ++ "_repeat")) step1
  if inject_outputs then inject_output_configuration step2 outputs_config
  else step2

/-- One top-level step of `flatten_json` over the keys of a nested object:
merge its non-"_repeat" keys into the accumulator. -/
def flatten_inner (fields : List (String × JVal)) (acc : List (String × JVal)) :
    List (String × JVal) :=
  match fields with
  | [] => acc
  | (k, v) :: rest =>
    flatten_inner rest (if contains_repeat k then acc else setKey acc k v)

/-- Accumulating worker of `flatten_json`. -/
def flatten_go (r : List (String × JVal)) (acc : List (String × JVal)) :
    List (String × JVal) :=
  match r with
  | [] => acc
  | (k, v) :: rest =>
    let acc' :=
      if contains_repeat k then acc
      else
        match v with
        | .obj fields => flatten_inner fields acc
        | v' => setKey acc k v'
    flatten_go rest acc'

/-- Modelled from the spec: `flatten_json` of the missing
`format_values.py`.  One level of flattening: object-valued keys have their
own fields merged up into the top level (deeper objects stay nested); any
key at either level containing the substring "_repeat" is dropped; later
merges overwrite earlier bindings, dictionary-style. -/
def flatten_json (r : List (String × JVal)) : List (String × JVal) :=
  flatten_go r []

/-- Is a value pruned by the final cleaning pass: an empty sequence, an
empty or whitespace-only string, or null? -/
def is_empty_value : JVal → Bool
  | .arr items => items.isEmpty
  | .str s => (trimChars s.data).isEmpty
  | .null => true
  | _ => false

/-- Modelled from the spec: the Normalizer's final pruning pass, removing
every key whose value is an empty sequence, an empty or whitespace-only
string, or null; surviving entries pass through unchanged. -/
def remove_empty_values (r : List (String × JVal)) : List (String × JVal) :=
  r.filter (fun kv => !(is_empty_value kv.2))

/-- Modelled from the spec: the record-transforming core of `main` in the
missing `format_values.py` CLI, as pinned by `tests/test_format_values.py`
(`TestMainCLI`): process the raw record with the flag-supplied key sets,
flatten one level, inject the fixed binding `"moo_output_rds" ↦ "moo.rds"`
attested by `test_basic_processing`, and prune empty values. -/
def main_pipeline (params : List (String × JVal)) (bool_keys list_keys : List String)
    (delimited_params : List (String × String)) : List (String × JVal) :=
  remove_empty_values
    (setKey (flatten_json (process_galaxy_params params bool_keys list_keys delimited_params none false))
      "moo_output_rds" (.str "moo.rds"))

/-- Modelled from the spec: the CLI entry point `main` of the missing
`format_values.py`.  The source argument abstracts reading and JSON-parsing
the input path: `none` stands for an unreadable path or malformed JSON, and
a parsed value that is not a JSON object is likewise not "the expected
structured record".  Failure exits with status 1 before any output is
written (the error branch carries no record); success writes the cleaned
record and exits with status 0. -/
def main_run (source : Option JVal) (bool_keys list_keys : List String)
    (delimited_params : List (String × String)) :
    Except Nat (List (String × JVal)) :=
  match source with
  | some (.obj params) => .ok (main_pipeline params bool_keys list_keys delimited_params)
  | _ => .error 1

/-! ### Tool-definition synthesizer model -/

/-- One blueprint parameter (input datasets and column parameters are
structurally similar records).  Numeric defaults and bounds appear in tool
definitions only through their rendered attribute text, so they are carried
here as the already-rendered strings. -/
structure Param where
  key : String
  displayName : String
  paramType : String
  defaultValue : Option String
  paramMin : Option String
  paramMax : Option String
  paramValues : List String
  paramGroup : Option String
  optional : Bool
  descriptionText : String

/-- One declared output artifact: a file or a directory. -/
structure OutputSpec where
  type : String
  name : String

/-- A blueprint record.  The Python code reads every field with a default,
so a missing field is identified with its empty default here; no field is
required. -/
structure Blueprint where
  title : String
  descriptionText : String
  r_function : String
  inputDatasets : List Param
  parameters : List Param
  columns : List Param
  outputs : List (String × OutputSpec)
  orderedMustacheKeys : Option (List String)

/-- The blueprint with every field missing. -/
def emptyBlueprint : Blueprint := ⟨"", "", "", [], [], [], [], none⟩

/-- Deployment constants of the synthesizer. -/
structure ToolConfig where
  docker_image : String
  citation_doi : String
  repo_name : String
  cli_command : String
  pkg_name : String

/-- Modelled from the spec: the fixed defaults the missing
`galaxy_xml_synthesizer.py` uses when configuration values are omitted, as
pinned by `test_init_with_defaults`. -/
def defaultConfig : ToolConfig :=
  ⟨"nciccbr/mosuite:latest", "10.5281/zenodo.16371580", "CCBR/MOSuite-Galaxy",
   "mosuite", "MOSuite"⟩

/-- XML documents: elements with ordered attributes and children, plus text
nodes. -/
inductive Xml where
  | elem (tag : String) (attrs : List (String × String)) (children : List Xml)
  | textNode (content : String)

/-- Tag of an XML node (text nodes have none). -/
def tagOf : Xml → String
  | .elem t _ _ => t
  | .textNode _ => ""

/-- Attribute list of an XML node. -/
def attrsOf : Xml → List (String × String)
  | .elem _ a _ => a
  | .textNode _ => []

/-- Children of an XML node. -/
def childrenOf : Xml → List Xml
  | .elem _ _ c => c
  | .textNode _ => []

/-- Tags of the top-level children of a node, in order. -/
def topTags (x : Xml) : List String := (childrenOf x).map tagOf

/-- First attribute value bound to a name. -/
def attr_lookup (x : Xml) (name : String) : Option String :=
  ((attrsOf x).find? (fun a => a.1 == name)).map (fun a => a.2)

/-- First child element carrying a tag. -/
def find_section (x : Xml) (tag : String) : Option Xml :=
  (childrenOf x).find? (fun c => tagOf c == tag)

/-- Tool id: lowercase of the invocation command joined to the blueprint's
r_function. -/
def make_tool_id (cli fn : String) : String := strLower (cli ++ "_" ++ fn)

/-- Section id derivation: lowercase the group name, turn spaces into
underscores, and strip every remaining non-alphanumeric, non-underscore
character. -/
def make_section_id (group : String) : String :=
  ⟨((strLower group).data.map (fun c => if c == ' ' then '_' else c)).filter
    (fun c => c.isAlphanum || c == '_')⟩

/-- Container tag parsing: `repo/image:tag` yields the tag, a reference
without a colon yields "latest". -/
def extract_docker_tag (image : String) : String :=
  let parts := splitOnStr image ":"
  if parts.length ≤ 1 then "latest" else (parts.reverse.headD "latest")

/-- File format inferred from an output file name's extension, with a
generic fallback when there is no extension. -/
def infer_format (name : String) : String :=
  let parts := splitOnStr name "."
  if parts.length ≤ 1 then "data" else strLower (parts.reverse.headD "data")

/-- Join strings with a separator. -/
def joinWith (sep : String) : List String → String
  | [] => ""
  | [x] => x
  | x :: xs => x ++ sep ++ joinWith sep xs

/-- Keys of the blueprint parameters the classifier marks boolean. -/
def bool_param_keys (bp : Blueprint) : List String :=
  (bp.parameters.filter (fun p => p.paramType == "BOOLEAN")).map (fun p => p.key)

/-- Keys of the blueprint parameters the classifier marks list-like, under
their bare names. -/
def list_param_keys (bp : Blueprint) : List String :=
  (bp.parameters.filter (fun p => p.paramType == "LIST" || p.paramType == "MULTISELECT")).map
    (fun p => p.key)

/-- Sanitizer policy predicate: keys known to carry delimited biological
notation, recognised by the substrings "Anchor" and "List". -/
def needs_special_chars (key : String) : Bool :=
  str_contains key "Anchor" || str_contains key "List"

/-- The punctuation allow-list the sanitizer grants beyond Galaxy's
default-safe set. -/
def sanitizer_chars : List String :=
  [";", "+", "<", ">", "/", ",", ".", "-", "(", ")", " "]

/-- Sanitizer element granting the punctuation allow-list. -/
def build_sanitizer : Xml :=
  .elem "sanitizer" []
    [.elem "valid" [("initial", "default")]
      (sanitizer_chars.map (fun c => Xml.elem "add" [("value", c)] []))]

/-- Attribute marking a widget optional, when the parameter is. -/
def optional_attr (p : Param) : List (String × String) :=
  if p.optional then [("optional", "true")] else []

/-- Sanitizer child for widgets whose key needs special characters. -/
def sanitizer_children (p : Param) : List Xml :=
  if needs_special_chars p.key then [build_sanitizer] else []

/-- One select option, marked selected when it equals the default. -/
def build_option (dflt : Option String) (v : String) : Xml :=
  .elem "option"
    ([("value", v)] ++ (if dflt == some v then [("selected", "true")] else []))
    [.textNode v]

/-- Modelled from the spec: the per-parameter widget synthesis of the
missing `galaxy_xml_synthesizer.py`, the classifier table made concrete.
STRING renders a text widget; BOOLEAN a boolean widget with fixed
truevalue/falsevalue; INTEGER and FLOAT numeric widgets with bounds only
when supplied, except "Positive integer" whose min defaults to 1; SELECT a
select with one option per value; MULTISELECT a multiple, optional select;
LIST a repeat container named `<key>_repeat` wrapping one inner text widget
literally named "value"; any unrecognized tag falls back to a text
widget. -/
def build_param_widget (p : Param) : Xml :=
  match p.paramType with
  | "BOOLEAN" =>
    .elem "param"
      [("name", p.key), ("type", "boolean"),
       ("checked", strLower (p.defaultValue.getD "false")),
       ("truevalue", "True"), ("falsevalue", "False"), ("label", p.displayName)]
      []
  | "INTEGER" =>
    .elem "param"
      ([("name", p.key), ("type", "integer"), ("value", p.defaultValue.getD "")] ++
       (match p.paramMin with | some m => [("min", m)] | none => []) ++
       (match p.paramMax with | some m => [("max", m)] | none => []) ++
       [("label", p.displayName)] ++ optional_attr p)
      []
  | "Positive integer" =>
    .elem "param"
      ([("name", p.key), ("type", "integer"), ("value", p.defaultValue.getD ""),
        ("min", p.paramMin.getD "1")] ++
       (match p.paramMax with | some m => [("max", m)] | none => []) ++
       [("label", p.displayName)] ++ optional_attr p)
      []
  | "FLOAT" =>
    .elem "param"
      ([("name", p.key), ("type", "float"), ("value", p.defaultValue.getD "")] ++
       (match p.paramMin with | some m => [("min", m)] | none => []) ++
       (match p.paramMax with | some m => [("max", m)] | none => []) ++
       [("label", p.displayName)] ++ optional_attr p)
      []
  | "SELECT" =>
    .elem "param"
      [("name", p.key), ("type", "select"), ("label", p.displayName)]
      (p.paramValues.map (build_option p.defaultValue))
  | "MULTISELECT" =>
    .elem "param"
      [("name", p.key), ("type", "select"), ("multiple", "true"),
       ("optional", "true"), ("label", p.displayName)]
      (p.paramValues.map (build_option p.defaultValue))
  | "LIST" =>
    .elem "repeat" [("name", p.key ++ "_repeat"), ("title", p.displayName)]
      [.elem "param"
        [("name", "value"), ("type", "text"), ("label", p.displayName), ("value", "")]
        []]
  | _ =>
    .elem "param"
      ([("name", p.key), ("type", "text"), ("label", p.displayName),
        ("value", p.defaultValue.getD "")] ++ optional_attr p)
      (sanitizer_children p)

/-- Dataset widget: a data-typed parameter whose accepted format is the
lower-cased dataset tag. -/
def build_dataset_widget (p : Param) : Xml :=
  .elem "param"
    [("name", p.key), ("type", "data"), ("format", strLower p.paramType),
     ("label", p.displayName)]
    []

/-- First-appearance order of the group names over a parameter list. -/
def group_names (ps : List Param) : List String :=
  ps.foldl (fun acc p =>
    match p.paramGroup with
    | some g => if acc.contains g then acc else acc ++ [g]
    | none => acc) []

/-- Modelled from the spec: the inputs section of the missing
`galaxy_xml_synthesizer.py`.  Dataset widgets come first, then ungrouped
parameters (and column parameters) in blueprint order, then one section per
distinct group in first-appearance order.  The spec leaves the effect of
`orderedMustacheKeys` underdetermined ("may instead drive full ordering");
no verified claim depends on it and the base ordering is modelled. -/
def build_inputs (bp : Blueprint) : Xml :=
  let allParams := bp.parameters ++ bp.columns
  let datasets := bp.inputDatasets.map build_dataset_widget
  let ungrouped := (allParams.filter (fun p => p.paramGroup.isNone)).map build_param_widget
  let sections := (group_names allParams).map (fun g =>
    Xml.elem "section"
      [("name", make_section_id g), ("title", g), ("expanded", "false")]
      ((allParams.filter (fun p => p.paramGroup == some g)).map build_param_widget))
  .elem "inputs" [] (datasets ++ ungrouped ++ sections)

/-- One declared output: a "directory" spec becomes a list collection that
discovers datasets inside the directory; anything else is a file artifact
bound to its working-directory name with an inferred format. -/
def build_output (oname : String) (os : OutputSpec) : Xml :=
  if os.type == "directory" then
    .elem "collection" [("name", oname), ("type", "list"), ("label", oname)]
      [.elem "discover_datasets"
        [("directory", os.name), ("pattern", "__name_and_ext__")] []]
  else
    .elem "data"
      [("name", oname), ("format", infer_format os.name),
       ("from_work_dir", os.name), ("label", oname)]
      []

/-- The two always-present debug artifacts capturing the raw and the
normalized parameter records. -/
def debug_outputs : List Xml :=
  [.elem "data"
    [("name", "params_json_debug"), ("format", "json"),
     ("from_work_dir", "params.json"), ("label", "params json debug")] [],
   .elem "data"
    [("name", "cleaned_params_debug"), ("format", "json"),
     ("from_work_dir", "cleaned_params.json"), ("label", "cleaned params debug")] []]

/-- Outputs section: blueprint-declared artifacts followed by the two debug
artifacts. -/
def build_outputs (bp : Blueprint) : Xml :=
  .elem "outputs" []
    ((bp.outputs.map (fun kv => build_output kv.1 kv.2)) ++ debug_outputs)

/-- Modelled from the spec: the command text, invoking the normalization
step with the boolean-key and list-key flag sets the classifier produced
(bare names for list keys) and then the configured command. -/
def command_text (bp : Blueprint) (cfg : ToolConfig) : String :=
  let boolFlag :=
    if (bool_param_keys bp).isEmpty then ""
    else " --bool-values " ++ joinWith " " (bool_param_keys bp)
  let listFlag :=
    if (list_param_keys bp).isEmpty then ""
    else " --list-values " ++ joinWith " " (list_param_keys bp)
  "python format_values.py params.json cleaned_params.json" ++ boolFlag ++ listFlag ++
    " && " ++ cfg.cli_command ++ " " ++ bp.r_function ++ " cleaned_params.json"

/-- Requirements section carrying the container image reference. -/
def build_requirements (cfg : ToolConfig) : Xml :=
  .elem "requirements" []
    [.elem "container" [("type", "docker")] [.textNode cfg.docker_image]]

/-- Configfiles section materializing the raw parameter record. -/
def build_configfiles : Xml :=
  .elem "configfiles" []
    [.elem "configfile" [("name", "params_json")] [.textNode "params json dump"]]

/-- Citations section carrying the configured DOI. -/
def build_citations (cfg : ToolConfig) : Xml :=
  .elem "citations" []
    [.elem "citation" [("type", "doi")] [.textNode cfg.citation_doi]]

/-- Modelled from the spec: `synthesize` of the missing
`galaxy_xml_synthesizer.py`.  Builds the full tool definition: identity
attributes (id from command and r_function, name from the title, the
externally supplied package version, and the fixed schema version profile
"24.2") and the eight ordered top-level sections.  The markdown-link
rewriting of description text is a narrow substitution no verified claim
concerns and the text is carried verbatim here. -/
def synthesize (bp : Blueprint) (cfg : ToolConfig) (version : String) : Xml :=
  .elem "tool"
    [("id", make_tool_id cfg.cli_command bp.r_function), ("name", bp.title),
     ("version", version), ("profile", "24.2")]
    [.elem "description" [] [.textNode bp.descriptionText],
     build_requirements cfg,
     .elem "command" [("detect_errors", "exit_code")] [.textNode (command_text bp cfg)],
     build_configfiles,
     build_inputs bp,
     build_outputs bp,
     .elem "help" [] [.textNode bp.descriptionText],
     build_citations cfg]

/-! ### Association-list lemmas -/

theorem mem_setKey {r : List (String × JVal)} {k : String} {v : JVal} {kv : String × JVal}
    (h : kv ∈ setKey r k v) : kv ∈ r ∨ kv = (k, v) := by
  induction r with
  | nil => simpa [setKey] using h
  | cons hd tl ih =>
    obtain ⟨k', v'⟩ := hd
    by_cases hk : k' == k
    · simp only [setKey, hk, if_pos] at h
      rcases List.mem_cons.mp h with h1 | h1
      · exact Or.inr h1
      · exact Or.inl (List.mem_cons_of_mem _ h1)
    · simp only [setKey, hk, Bool.false_eq_true, if_neg, if_false] at h
      rcases List.mem_cons.mp h with h1 | h1
      · exact Or.inl (h1 ▸ List.mem_cons_self _ _)
      · rcases ih h1 with h2 | h2
        · exact Or.inl (List.mem_cons_of_mem _ h2)
        · exact Or.inr h2

theorem setKey_of_fresh {r : List (String × JVal)} {k : String} (v : JVal)
    (h : k ∉ r.map Prod.fst) : setKey r k v = r ++ [(k, v)] := by
  induction r with
  | nil => rfl
  | cons hd tl ih =>
    obtain ⟨k', v'⟩ := hd
    simp only [List.map_cons, List.mem_cons, not_or] at h
    have hk : (k' == k) = false := by
      simp only [beq_eq_false_iff_ne, ne_eq]
      exact fun hkk => h.1 (hkk ▸ rfl)
    simp only [setKey, hk, Bool.false_eq_true, if_false, List.cons_append,
      List.cons.injEq, true_and]
    exact ih h.2

theorem lookup_setKey_self (r : List (String × JVal)) (k : String) (v : JVal) :
    lookupKey (setKey r k v) k = some v := by
  induction r with
  | nil => simp [setKey, lookupKey]
  | cons hd tl ih =>
    obtain ⟨k', v'⟩ := hd
    by_cases hk : k' == k
    · simp [setKey, hk, lookupKey]
    · simp only [setKey, hk, Bool.false_eq_true, if_false]
      simpa [lookupKey, hk] using ih

theorem lookup_setKey_ne (r : List (String × JVal)) {k' k : String} (v : JVal)
    (h : k' ≠ k) : lookupKey (setKey r k' v) k = lookupKey r k := by
  induction r with
  | nil => simp [setKey, lookupKey, h]
  | cons hd tl ih =>
    obtain ⟨k0, v0⟩ := hd
    by_cases hk : k0 == k'
    · have hk0 : k0 = k' := by simpa using hk
      simp [setKey, hk, lookupKey, h, hk0]
    · simp only [setKey, hk, Bool.false_eq_true, if_false]
      by_cases hk2 : k0 == k
      · simp [lookupKey, hk2]
      · simpa [lookupKey, hk2] using ih

theorem lookup_removeKey_self (r : List (String × JVal)) (k : String) :
    lookupKey (removeKey r k) k = none := by
  induction r with
  | nil => rfl
  | cons hd tl ih =>
    obtain ⟨k', v'⟩ := hd
    by_cases hk : k' == k
    · simpa [removeKey, hk, List.filter] using ih
    · simpa [removeKey, hk, List.filter, lookupKey] using ih

theorem lookup_removeKey_ne (r : List (String × JVal)) {k' k : String}
    (h : k' ≠ k) : lookupKey (removeKey r k') k = lookupKey r k := by
  induction r with
  | nil => rfl
  | cons hd tl ih =>
    obtain ⟨k0, v0⟩ := hd
    by_cases hk : k0 == k'
    · have hk0 : k0 = k' := by simpa using hk
      have hne : (k0 == k) = false := by
        simp only [beq_eq_false_iff_ne, ne_eq]
        exact hk0 ▸ h
      simpa [removeKey, hk, List.filter, lookupKey, hne] using ih
    · by_cases hk2 : k0 == k
      · simp [removeKey, hk, List.filter, lookupKey, hk2]
      · simpa [removeKey, hk, List.filter, lookupKey, hk2] using ih

theorem lookup_remove_empty {r : List (String × JVal)} {k : String} {v : JVal}
    (h : lookupKey r k = some v) (hv : is_empty_value v = false) :
    lookupKey (remove_empty_values r) k = some v := by
  induction r with
  | nil => simp [lookupKey] at h
  | cons hd tl ih =>
    obtain ⟨k', v'⟩ := hd
    by_cases hk : k' == k
    · simp only [lookupKey, hk, if_pos, Option.some.injEq] at h
      subst h
      simp [remove_empty_values, List.filter, hv, lookupKey, hk]
    · simp only [lookupKey, hk, Bool.false_eq_true, if_false] at h
      by_cases he : is_empty_value v'
      · simpa [remove_empty_values, List.filter, he] using ih h
      · have := ih h
        simp only [remove_empty_values] at this ⊢
        simp [List.filter, he, lookupKey, hk, this]

theorem mem_remove_empty {r : List (String × JVal)} {kv : String × JVal}
    (h : kv ∈ r) (hv : is_empty_value kv.2 = false) :
    kv ∈ remove_empty_values r :=
  List.mem_filter.mpr ⟨h, by simp [hv]⟩

theorem mem_of_mem_remove_empty {r : List (String × JVal)} {kv : String × JVal}
    (h : kv ∈ remove_empty_values r) :
    kv ∈ r ∧ is_empty_value kv.2 = false := by
  have := List.mem_filter.mp h
  exact ⟨this.1, by simpa using this.2⟩

/-! ### Flattening lemmas -/

theorem flatten_inner_inv {fields acc : List (String × JVal)}
    (hacc : ∀ kv ∈ acc, contains_repeat kv.1 = false) :
    ∀ kv ∈ flatten_inner fields acc, contains_repeat kv.1 = false := by
  induction fields generalizing acc with
  | nil => simpa [flatten_inner] using hacc
  | cons hd tl ih =>
    obtain ⟨k, v⟩ := hd
    by_cases hk : contains_repeat k
    · simpa [flatten_inner, hk] using ih hacc
    · simp only [flatten_inner, hk, Bool.false_eq_true, if_false]
      refine ih ?_
      intro kv hkv
      rcases mem_setKey hkv with h1 | h1
      · exact hacc kv h1
      · subst h1
        simpa using hk

theorem flatten_go_inv {r acc : List (String × JVal)}
    (hacc : ∀ kv ∈ acc, contains_repeat kv.1 = false) :
    ∀ kv ∈ flatten_go r acc, contains_repeat kv.1 = false := by
  induction r generalizing acc with
  | nil => simpa [flatten_go] using hacc
  | cons hd tl ih =>
    obtain ⟨k, v⟩ := hd
    by_cases hk : contains_repeat k
    · simpa [flatten_go, hk] using ih hacc
    · cases v with
      | obj fields =>
        simp only [flatten_go, hk, Bool.false_eq_true, if_false]
        exact ih (flatten_inner_inv hacc)
      | null =>
        simp only [flatten_go, hk, Bool.false_eq_true, if_false]
        refine ih ?_
        intro kv hkv
        rcases mem_setKey hkv with h1 | h1
        · exact hacc kv h1
        · subst h1; simpa using hk
      | bool b =>
        simp only [flatten_go, hk, Bool.false_eq_true, if_false]
        refine ih ?_
        intro kv hkv
        rcases mem_setKey hkv with h1 | h1
        · exact hacc kv h1
        · subst h1; simpa using hk
      | num n =>
        simp only [flatten_go, hk, Bool.false_eq_true, if_false]
        refine ih ?_
        intro kv hkv
        rcases mem_setKey hkv with h1 | h1
        · exact hacc kv h1
        · subst h1; simpa using hk
      | str s =>
        simp only [flatten_go, hk, Bool.false_eq_true, if_false]
        refine ih ?_
        intro kv hkv
        rcases mem_setKey hkv with h1 | h1
        · exact hacc kv h1
        · subst h1; simpa using hk
      | arr items =>
        simp only [flatten_go, hk, Bool.false_eq_true, if_false]
        refine ih ?_
        intro kv hkv
        rcases mem_setKey hkv with h1 | h1
        · exact hacc kv h1
        · subst h1; simpa using hk

theorem flatten_json_no_repeat {r : List (String × JVal)} :
    ∀ kv ∈ flatten_json r, contains_repeat kv.1 = false :=
  flatten_go_inv (by intro kv h; simp at h)

theorem flatten_go_flat {r : List (String × JVal)} :
    ∀ acc : List (String × JVal),
    (∀ kv ∈ r, is_obj kv.2 = false ∧ contains_repeat kv.1 = false) →
    (r.map Prod.fst).Nodup →
    (∀ k ∈ r.map Prod.fst, k ∉ acc.map Prod.fst) →
    flatten_go r acc = acc ++ r := by
  induction r with
  | nil => intro acc _ _ _; simp [flatten_go]
  | cons hd tl ih =>
    intro acc hflat hnd hfresh
    obtain ⟨k, v⟩ := hd
    have hhd := hflat (k, v) (List.mem_cons_self _ _)
    have hk : contains_repeat k = false := hhd.2
    have hobj : is_obj v = false := hhd.1
    have hset : setKey acc k v = acc ++ [(k, v)] :=
      setKey_of_fresh v (hfresh k (by simp))
    have hstep : flatten_go ((k, v) :: tl) acc = flatten_go tl (acc ++ [(k, v)]) := by
      cases v with
      | obj fields => simp [is_obj] at hobj
      | null => simp [flatten_go, hk, hset]
      | bool b => simp [flatten_go, hk, hset]
      | num n => simp [flatten_go, hk, hset]
      | str s => simp [flatten_go, hk, hset]
      | arr items => simp [flatten_go, hk, hset]
    have hnd' : k ∉ tl.map Prod.fst ∧ (tl.map Prod.fst).Nodup := by
      rw [List.map_cons] at hnd
      exact List.nodup_cons.mp hnd
    rw [hstep, ih (acc ++ [(k, v)])
      (fun kv hkv => hflat kv (List.mem_cons_of_mem _ hkv))
      hnd'.2
      ?_]
    · simp
    · intro k' hk'
      have hk'acc : k' ∉ acc.map Prod.fst := hfresh k' (by simp [hk'])
      have hk'k : k' ≠ k := by
        intro hkk
        subst hkk
        exact hnd'.1 hk'
      simpa [hk'k] using hk'acc

theorem flatten_json_flat {r : List (String × JVal)}
    (hflat : ∀ kv ∈ r, is_obj kv.2 = false ∧ contains_repeat kv.1 = false)
    (hnd : (r.map Prod.fst).Nodup) :
    flatten_json r = r := by
  simpa [flatten_json] using flatten_go_flat [] hflat hnd (by simp)

/-- A key is never equal to itself with the "_repeat" suffix appended. -/
theorem ne_append_repeat (k : String) : k ≠ k ++ "_repeat" := by
  intro h
  have h2 := congrArg String.length h
  rw [String.length_append] at h2
  have h3 : ("_repeat" : String).length = 7 := rfl
  omega

theorem contains_eq_mem {l : List String} {x : String} :
    l.contains x = true ↔ x ∈ l := by
  simp [List.contains]

theorem normalize_boolean_str_eq (s : String) :
    normalize_boolean (.str s) =
      (if true_words.contains (strLower (strTrim s)) then true
       else if false_words.contains (strLower (strTrim s)) then false
       else !(strLower (strTrim s) == "")) := rfl

/-! ### Claim theorems -/

/-- Claim C2: `normalize_boolean` is a total function (it is a total Lean
definition over all JSON values): native booleans pass through; `None` maps
to false; numeric zero maps to false and any nonzero number to true; a
string is trimmed and case-folded, then every member of the true-set maps to
true, every member of the false-set maps to false (all-whitespace strings
included), and every other non-empty string maps to true (every trimmed
case-folded string outside both sets is necessarily non-empty, "" being in
the false-set). -/
theorem normalize_boolean_total_spec :
    (∀ b : Bool, normalize_boolean (.bool b) = b)
    ∧ normalize_boolean .null = false
    ∧ (∀ n : Int, normalize_boolean (.num n) = if n = 0 then false else true)
    ∧ (∀ s : String, strLower (strTrim s) ∈ true_words →
        normalize_boolean (.str s) = true)
    ∧ (∀ s : String, strLower (strTrim s) ∈ false_words →
        normalize_boolean (.str s) = false)
    ∧ (∀ s : String, strLower (strTrim s) ∉ true_words →
        strLower (strTrim s) ∉ false_words → normalize_boolean (.str s) = true)
    ∧ (∀ s : String, (∀ c ∈ s.data, isSpaceChar c = true) →
        normalize_boolean (.str s) = false) := by
  refine ⟨fun b => rfl, rfl, fun n => ?_, fun s hmem => ?_, fun s hmem => ?_,
    fun s hmem1 hmem2 => ?_, fun s hsp => ?_⟩
  · by_cases h : n = 0 <;> simp [normalize_boolean, h]
  · rw [normalize_boolean_str_eq, if_pos (contains_eq_mem.mpr hmem)]
  · cases hc : true_words.contains (strLower (strTrim s)) with
    | true =>
      exfalso
      have ht := contains_eq_mem.mp hc
      simp only [true_words, List.mem_cons, List.mem_singleton,
        List.not_mem_nil, or_false] at ht
      rcases ht with h1 | h1 | h1 | h1 <;> rw [h1] at hmem <;>
        exact absurd hmem (by decide)
    | false =>
      have hf : false_words.contains (strLower (strTrim s)) = true :=
        contains_eq_mem.mpr hmem
      rw [normalize_boolean_str_eq,
        if_neg (fun h2 => by rw [hc] at h2; exact absurd h2 (by decide)), if_pos hf]
  · have h1 : true_words.contains (strLower (strTrim s)) = false := by
      rw [Bool.eq_false_iff]
      intro hc
      exact hmem1 (contains_eq_mem.mp hc)
    have h2 : false_words.contains (strLower (strTrim s)) = false := by
      rw [Bool.eq_false_iff]
      intro hc
      exact hmem2 (contains_eq_mem.mp hc)
    have h3 : (strLower (strTrim s) == "") = false := by
      rw [Bool.eq_false_iff]
      intro hc
      have he : strLower (strTrim s) = "" := by simpa using hc
      exact hmem2 (by rw [he]; decide)
    rw [normalize_boolean_str_eq,
      if_neg (fun h4 => by rw [h1] at h4; exact absurd h4 (by decide)),
      if_neg (fun h4 => by rw [h2] at h4; exact absurd h4 (by decide)), h3]
    rfl
  · have htrim : trimChars s.data = [] := by
      have hd : s.data.dropWhile isSpaceChar = [] :=
        List.dropWhile_eq_nil_iff.mpr (fun x hx => hsp x hx)
      simp [trimChars, hd]
    have ht : strLower (strTrim s) = "" := by
      show (⟨(trimChars s.data).map lowerChar⟩ : String) = ""
      rw [htrim]
      rfl
    rw [normalize_boolean_str_eq, ht]
    decide

/-- Witness for claim C2 at concrete inputs: "  True  " coerces true, " none "
coerces false, and the permissive fallback sends "maybe" to true. -/
theorem normalize_boolean_total_spec_witness :
    normalize_boolean (.str "  True  ") = true
    ∧ normalize_boolean (.str " none ") = false
    ∧ normalize_boolean (.str "maybe") = true :=
  ⟨normalize_boolean_total_spec.2.2.2.1 "  True  " (by decide),
   normalize_boolean_total_spec.2.2.2.2.1 " none " (by decide),
   normalize_boolean_total_spec.2.2.2.2.2.1 "maybe" (by decide) (by decide)⟩

/-- Claim C4: `flatten_json` flattens exactly one level — nested-object keys
are merged into the top level while objects nested two levels deep stay
nested, every key at either level containing the substring "_repeat"
anywhere is dropped (so "my_repeat_param" is dropped while "repeat_count" is
kept), and non-object values of surviving distinct keys pass through
unchanged (an already-flat record with no "_repeat" keys is returned
verbatim). -/
theorem flatten_json_spec :
    flatten_json [("a", .num 1), ("my_repeat_x", .num 9),
        ("b", .obj [("c", .num 2), ("nested_repeat", .arr [.num 1])])] =
      [("a", .num 1), ("c", .num 2)]
    ∧ (∀ r : List (String × JVal), ∀ kv ∈ flatten_json r,
        contains_repeat kv.1 = false)
    ∧ (∀ r : List (String × JVal),
        (∀ kv ∈ r, is_obj kv.2 = false ∧ contains_repeat kv.1 = false) →
        (r.map Prod.fst).Nodup → flatten_json r = r)
    ∧ flatten_json [("level1", .obj [("level2", .obj [("level3", .str "value")])])] =
        [("level2", .obj [("level3", .str "value")])]
    ∧ flatten_json [("count", .num 5), ("my_repeat_param", .num 99),
        ("repeat_count", .num 7)] =
        [("count", .num 5), ("repeat_count", .num 7)] := by
  refine ⟨rfl, ?_, ?_, rfl, rfl⟩
  · intro r kv h
    exact flatten_json_no_repeat kv h
  · intro r h1 h2
    exact flatten_json_flat h1 h2

/-- Witness for claim C4 at concrete inputs: the merged-up key "c" carries no
"_repeat", and an already-flat two-key record passes through unchanged. -/
theorem flatten_json_spec_witness :
    contains_repeat "c" = false
    ∧ flatten_json [("a", JVal.num 1), ("b", JVal.num 2)] =
        [("a", JVal.num 1), ("b", JVal.num 2)] := by
  constructor
  · refine flatten_json_spec.2.1 [("outer", .obj [("c", .num 2)])] ("c", .num 2) ?_
    show ("c", JVal.num 2) ∈ ([("c", JVal.num 2)] : List (String × JVal))
    exact List.mem_singleton.mpr rfl
  · exact flatten_json_spec.2.2.1 [("a", JVal.num 1), ("b", JVal.num 2)]
      (by decide) (by decide)

/-- Claim C5: the record written by a successful Normalizer invocation
contains no key whose name contains the substring "_repeat" and no key
whose value is an empty sequence, an empty or whitespace-only string, or
null; every other binding passes the final pruning unchanged. -/
theorem normalized_params_invariant :
    (∀ (params : List (String × JVal)) (bool_keys list_keys : List String)
        (delimited_params : List (String × String)),
      ∀ kv ∈ main_pipeline params bool_keys list_keys delimited_params,
        contains_repeat kv.1 = false ∧ is_empty_value kv.2 = false)
    ∧ (∀ r : List (String × JVal), ∀ kv ∈ r, is_empty_value kv.2 = false →
        kv ∈ remove_empty_values r) := by
  constructor
  · intro params bk lk dl kv hkv
    unfold main_pipeline at hkv
    obtain ⟨hmem, hval⟩ := mem_of_mem_remove_empty hkv
    refine ⟨?_, hval⟩
    rcases mem_setKey hmem with h1 | h1
    · exact flatten_json_no_repeat kv h1
    · rw [h1]
      decide
  · intro r kv hkv he
    exact mem_remove_empty hkv he

/-- Witness for claim C5 at a concrete invocation: the surviving binding of
a record mixing empty and non-empty values satisfies both invariants. -/
theorem normalized_params_invariant_witness :
    contains_repeat "valid_value" = false
    ∧ is_empty_value (JVal.str "keep_me") = false := by
  have h : ("valid_value", JVal.str "keep_me") ∈
      main_pipeline [("empty_list", JVal.arr []), ("valid_value", JVal.str "keep_me")]
        [] [] [] := by
    show ("valid_value", JVal.str "keep_me") ∈
      ([("valid_value", JVal.str "keep_me"), ("moo_output_rds", JVal.str "moo.rds")] :
        List (String × JVal))
    exact List.mem_cons_self _ _
  exact normalized_params_invariant.1 _ [] [] [] _ h

/-- Claim C6: output injection with an absent (`none`) or empty
configuration leaves the record completely unchanged; a non-empty
configuration binds exactly "outputs" to the configuration verbatim and
"save_results" to true, while every other key keeps its previous binding. -/
theorem inject_output_configuration_spec :
    (∀ cleaned : List (String × JVal),
      inject_output_configuration cleaned none = cleaned)
    ∧ (∀ cleaned : List (String × JVal),
      inject_output_configuration cleaned (some []) = cleaned)
    ∧ (∀ cleaned cfg : List (String × JVal), cfg ≠ [] →
        lookupKey (inject_output_configuration cleaned (some cfg)) "outputs" =
          some (.obj cfg)
        ∧ lookupKey (inject_output_configuration cleaned (some cfg)) "save_results" =
            some (.bool true)
        ∧ (∀ k : String, k ≠ "outputs" → k ≠ "save_results" →
            lookupKey (inject_output_configuration cleaned (some cfg)) k =
              lookupKey cleaned k)) := by
  refine ⟨fun _ => rfl, fun _ => rfl, fun cleaned cfg hcfg => ?_⟩
  have hne : cfg.isEmpty = false := by
    cases cfg with
    | nil => exact absurd rfl hcfg
    | cons h t => rfl
  have hinj : inject_output_configuration cleaned (some cfg) =
      setKey (setKey cleaned "outputs" (.obj cfg)) "save_results" (.bool true) := by
    simp [inject_output_configuration, hne]
  refine ⟨?_, ?_, ?_⟩
  · rw [hinj, lookup_setKey_ne _ _ (by decide), lookup_setKey_self]
  · rw [hinj, lookup_setKey_self]
  · intro k hk1 hk2
    rw [hinj, lookup_setKey_ne _ _ (Ne.symm hk2), lookup_setKey_ne _ _ (Ne.symm hk1)]

/-- Witness for claim C6 at a concrete record and configuration. -/
theorem inject_output_configuration_spec_witness :
    lookupKey (inject_output_configuration [("param1", JVal.str "value1")]
        (some [("output_file", JVal.str "result.csv")])) "outputs" =
      some (.obj [("output_file", JVal.str "result.csv")])
    ∧ lookupKey (inject_output_configuration [("param1", JVal.str "value1")]
        (some [("output_file", JVal.str "result.csv")])) "save_results" =
      some (.bool true)
    ∧ lookupKey (inject_output_configuration [("param1", JVal.str "value1")]
        (some [("output_file", JVal.str "result.csv")])) "param1" =
      lookupKey [("param1", JVal.str "value1")] "param1" := by
  have h := inject_output_configuration_spec.2.2 [("param1", JVal.str "value1")]
    [("output_file", JVal.str "result.csv")] (by simp)
  exact ⟨h.1, h.2.1, h.2.2 "param1" (by decide) (by decide)⟩

/-- Claim C7: the Normalizer CLI exits with status 0 (the `ok` branch
carrying the written record) exactly when the source reads and parses as a
JSON object, and exits with status 1 — the error branch carrying no output
record — when the source is unreadable/unparseable (`none`) or parses to a
value that is not the expected structured record. -/
theorem main_run_exit_status :
    (∀ (bool_keys list_keys : List String) (dl : List (String × String)),
      main_run none bool_keys list_keys dl = .error 1)
    ∧ (∀ (j : JVal) (bool_keys list_keys : List String) (dl : List (String × String)),
        is_obj j = false → main_run (some j) bool_keys list_keys dl = .error 1)
    ∧ (∀ (params : List (String × JVal)) (bool_keys list_keys : List String)
        (dl : List (String × String)),
        main_run (some (.obj params)) bool_keys list_keys dl =
          .ok (main_pipeline params bool_keys list_keys dl))
    ∧ (∀ (source : Option JVal) (bool_keys list_keys : List String)
        (dl : List (String × String)),
        (∃ r, main_run source bool_keys list_keys dl = .ok r) ↔
          ∃ params, source = some (.obj params)) := by
  refine ⟨fun _ _ _ => rfl, fun j bk lk dl hj => ?_, fun _ _ _ _ => rfl,
    fun source bk lk dl => ?_⟩
  · cases j with
    | obj fields => simp [is_obj] at hj
    | null => rfl
    | bool b => rfl
    | num n => rfl
    | str s => rfl
    | arr items => rfl
  · constructor
    · rintro ⟨r, hr⟩
      cases source with
      | none => simp [main_run] at hr
      | some j =>
        cases j with
        | obj fields => exact ⟨fields, rfl⟩
        | null => simp [main_run] at hr
        | bool b => simp [main_run] at hr
        | num n => simp [main_run] at hr
        | str s => simp [main_run] at hr
        | arr items => simp [main_run] at hr
    · rintro ⟨params, hp⟩
      subst hp
      exact ⟨_, rfl⟩

/-- Witness for claim C7 at concrete inputs: a non-object source exits with
status 1 and an object source succeeds. -/
theorem main_run_exit_status_witness :
    main_run (some (.str "not a record")) [] [] [] = .error 1
    ∧ (∃ r, main_run (some (.obj [("a", JVal.str "b")])) [] [] [] = .ok r) := by
  constructor
  · exact main_run_exit_status.2.1 (.str "not a record") [] [] [] (by decide)
  · exact (main_run_exit_status.2.2.2 (some (.obj [("a", JVal.str "b")])) [] [] []).mpr
      ⟨[("a", JVal.str "b")], rfl⟩

/-- Claim C9: every successful run of the Normalizer CLI binds
"moo_output_rds" to "moo.rds" in the written cleaned record, for every raw
record (including records where that key is absent) and every flag
configuration. -/
theorem main_moo_output_rds (params : List (String × JVal))
    (bool_keys list_keys : List String) (delimited_params : List (String × String)) :
    lookupKey (main_pipeline params bool_keys list_keys delimited_params)
      "moo_output_rds" = some (.str "moo.rds") := by
  unfold main_pipeline
  exact lookup_remove_empty (lookup_setKey_self _ _ _) (by decide)

/-- Claim C3: the synthesized tool definition's top-level child elements are
exactly description, requirements, command, configfiles, inputs, outputs,
help, citations in that order, for every blueprint and configuration; in
particular command (position 3) precedes configfiles (position 4). -/
theorem tool_element_order (bp : Blueprint) (cfg : ToolConfig) (version : String) :
    topTags (synthesize bp cfg version) =
      ["description", "requirements", "command", "configfiles", "inputs",
       "outputs", "help", "citations"] := rfl

/-- Claim C1 counterexample: the claim promises that normalizing a record
holding `<k>_repeat` as a sequence of value-records yields `k` bound to
"the list of those values"; but the extraction trims each value and drops
entries empty after trimming, so the record
`{"features_repeat": [{"value": ""}]}` yields `features ↦ []`, not
`features ↦ [""]`. -/
theorem list_roundtrip_counterexample :
    lookupKey (process_galaxy_params
        [("features_repeat", .arr [.obj [("value", .str "")]])]
        [] ["features"] [] none false) "features" = some (.arr [])
    ∧ some (JVal.arr []) ≠ some (JVal.arr [.str ""]) := by
  refine ⟨rfl, ?_⟩
  simp

/-- Claim C1 (amended): for every LIST-typed parameter the Synthesizer emits
a repeat container named `<key>_repeat` wrapping one inner text widget named
"value"; and for every raw record holding `<k>_repeat` as a sequence of
`{"value": v}` records, normalizing with `k` among the list-keys (and no
delimiter configured for `k`) binds `k` to the list of those values
stringified and trimmed with entries empty after trimming dropped, and
leaves `<k>_repeat` absent from the result. -/
theorem list_roundtrip_contract :
    (∀ p : Param, p.paramType = "LIST" →
      build_param_widget p =
        .elem "repeat" [("name", p.key ++ "_repeat"), ("title", p.displayName)]
          [.elem "param"
            [("name", "value"), ("type", "text"), ("label", p.displayName), ("value", "")]
            []])
    ∧ (∀ (k : String) (vs : List JVal) (params : List (String × JVal))
        (dl : List (String × String)),
        lookupKey params (k ++ "_repeat") =
          some (.arr (vs.map (fun v => .obj [("value", v)]))) →
        dl.find? (fun d => d.1 == k) = none →
        lookupKey (process_galaxy_params params [] [k] dl none false) k =
          some (.arr (((vs.map (fun v => strTrim (jval_to_string v))).filter
            (fun s => !(s == ""))).map JVal.str))
        ∧ lookupKey (process_galaxy_params params [] [k] dl none false)
            (k ++ "_repeat") = none) := by
  constructor
  · intro p hp
    rw [build_param_widget, hp]
    rfl
  · intro k vs params dl hrep hdl
    have hproc : process_galaxy_params params [] [k] dl none false =
        removeKey (setKey params k
          (.arr ((extract_list_from_repeat params k).map JVal.str))) (k ++ "_repeat") := by
      simp [process_galaxy_params, hdl]
    have hext : extract_list_from_repeat params k =
        (vs.map (fun v => strTrim (jval_to_string v))).filter (fun s => !(s == "")) := by
      simp only [extract_list_from_repeat, hrep, List.map_map]
      rfl
    constructor
    · rw [hproc, hext, lookup_removeKey_ne _ (Ne.symm (ne_append_repeat k)),
        lookup_setKey_self]
    · rw [hproc, lookup_removeKey_self]

/-- Witness for claim C1 at the spec's concrete round trip: a LIST parameter
with key "features" synthesizes `features_repeat` wrapping "value", and the
record `{"features_repeat":[{"value":"CD3"},{"value":"CD4"}]}` normalizes to
`features ↦ ["CD3","CD4"]` with `features_repeat` gone. -/
theorem list_roundtrip_contract_witness :
    build_param_widget ⟨"features", "Features", "LIST", none, none, none, [], none,
        false, ""⟩ =
      .elem "repeat" [("name", "features_repeat"), ("title", "Features")]
        [.elem "param"
          [("name", "value"), ("type", "text"), ("label", "Features"), ("value", "")] []]
    ∧ lookupKey (process_galaxy_params
        [("features_repeat", .arr [.obj [("value", .str "CD3")], .obj [("value", .str "CD4")]])]
        [] ["features"] [] none false) "features" =
      some (.arr [.str "CD3", .str "CD4"])
    ∧ lookupKey (process_galaxy_params
        [("features_repeat", .arr [.obj [("value", .str "CD3")], .obj [("value", .str "CD4")]])]
        [] ["features"] [] none false) "features_repeat" = none := by
  have h := list_roundtrip_contract.2 "features" [.str "CD3", .str "CD4"]
    [("features_repeat", .arr [.obj [("value", .str "CD3")], .obj [("value", .str "CD4")]])]
    [] rfl rfl
  exact ⟨list_roundtrip_contract.1
    ⟨"features", "Features", "LIST", none, none, none, [], none, false, ""⟩ rfl,
    h.1, h.2⟩

/-- Claim C8 counterexample: the outputs section of the tool synthesized
from the empty blueprint is not empty — it always carries the two debug
artifacts (as the repository's own `test_debug_outputs_included` asserts),
so "absent collections degrade to empty inputs/outputs sections" fails for
the outputs section. -/
theorem synthesize_empty_outputs_counterexample :
    (find_section (synthesize emptyBlueprint defaultConfig "1.0.0") "outputs").map
      (fun s => (childrenOf s).isEmpty) = some false := rfl

/-- Claim C8 (amended): `synthesize` is a total function of the blueprint —
every blueprint, the empty record included, yields a well-formed "tool"
definition with the eight ordered sections; absent collections degrade to an
empty inputs section and an outputs section containing only the two
always-present debug artifacts. -/
theorem synthesize_total_degradation (bp : Blueprint) (cfg : ToolConfig)
    (version : String) :
    tagOf (synthesize bp cfg version) = "tool"
    ∧ topTags (synthesize bp cfg version) =
        ["description", "requirements", "command", "configfiles", "inputs",
         "outputs", "help", "citations"]
    ∧ (bp.inputDatasets = [] → bp.parameters = [] → bp.columns = [] →
        find_section (synthesize bp cfg version) "inputs" =
          some (.elem "inputs" [] []))
    ∧ (bp.outputs = [] →
        find_section (synthesize bp cfg version) "outputs" =
          some (.elem "outputs" [] debug_outputs)) := by
  refine ⟨rfl, rfl, ?_, ?_⟩
  · intro h1 h2 h3
    have hfind : find_section (synthesize bp cfg version) "inputs" =
        some (build_inputs bp) := rfl
    rw [hfind]
    simp [build_inputs, h1, h2, h3, group_names]
  · intro h
    have hfind : find_section (synthesize bp cfg version) "outputs" =
        some (build_outputs bp) := rfl
    rw [hfind]
    simp [build_outputs, h]

/-- Witness for claim C8 at the empty blueprint. -/
theorem synthesize_total_degradation_witness :
    find_section (synthesize emptyBlueprint defaultConfig "1.0.0") "inputs" =
      some (Xml.elem "inputs" [] [])
    ∧ find_section (synthesize emptyBlueprint defaultConfig "1.0.0") "outputs" =
      some (Xml.elem "outputs" [] debug_outputs) :=
  ⟨(synthesize_total_degradation emptyBlueprint defaultConfig "1.0.0").2.2.1 rfl rfl rfl,
   (synthesize_total_degradation emptyBlueprint defaultConfig "1.0.0").2.2.2 rfl⟩

/-- Claim C10: the Synthesizer's omitted-configuration defaults are the
fixed strings docker image "nciccbr/mosuite:latest", citation DOI
"10.5281/zenodo.16371580", repository "CCBR/MOSuite-Galaxy", invocation
command "mosuite" and package "MOSuite"; and every synthesized tool
definition carries the fixed schema-version attribute profile = "24.2". -/
theorem default_config_and_profile :
    defaultConfig.docker_image = "nciccbr/mosuite:latest"
    ∧ defaultConfig.citation_doi = "10.5281/zenodo.16371580"
    ∧ defaultConfig.repo_name = "CCBR/MOSuite-Galaxy"
    ∧ defaultConfig.cli_command = "mosuite"
    ∧ defaultConfig.pkg_name = "MOSuite"
    ∧ (∀ (bp : Blueprint) (cfg : ToolConfig) (version : String),
        attr_lookup (synthesize bp cfg version) "profile" = some "24.2") :=
  ⟨rfl, rfl, rfl, rfl, rfl, fun _ _ _ => rfl⟩

end MOSuite
